import Mathlib

/-!
Shallow embedding of the eventbridge-router core (PluginManager and
EventRouter) together with proofs checking the natural-language
specification against the code.

The embedding mirrors:
  * `src/core/plugin-manager` (register / registerAll / triggerEvent /
    triggerReplay / triggerDLQ / executeHook / shouldHandleEvent /
    createContext / getPlugin / listPlugins);
  * `src/core/event-router.ts` (constructor defaults, processBatch,
    batchDeduplication, groupPluginsByMode, executeAsyncPlugins,
    executeSyncPlugins, extractFailedEvents, batchStoreEvents, sendToDLQ);
  * `src/services/dynamodb.ts` (the record built by storeEvent).

JavaScript truthiness on optional strings and numbers is modelled
explicitly (empty string and zero are falsy).  Plugin hooks are modelled
as pure functions from an event and a context to `Except String Unit`
(an `Except.error` models a rejected promise / thrown error).  Joined
concurrent groups (`Promise.allSettled`) are serialised in list order;
the join boundaries between phases are exactly where the source code
has `await`.
-/

namespace EventbridgeRouter

inductive LogLevel where
  | debug
  | info
  | warn
  | error
deriving DecidableEq, Repr

/-- `PluginEvent` from `src/types/plugin` (fields the router inspects;
`data` is opaque to the router and modelled as a string, `timestamp`
as an optional instant in seconds). -/
structure Event where
  id : Option String
  name : String
  source : String
  data : String
  timestamp : Option Nat
deriving DecidableEq, Repr

/-- JS truthiness of `e.id` (used by the router's `!!e.id` filters):
present and non-empty. -/
def Event.truthyId (e : Event) : Bool :=
  match e.id with
  | some s => s ≠ ""
  | none => false

/-- The router's error-map key `event.id || event.name` (JS `||`:
an absent or empty id falls through to the name). -/
def Event.key (e : Event) : String :=
  match e.id with
  | some s => if s ≠ "" then s else e.name
  | none => e.name

/-- The id the router passes to the store for an event that has a
truthy id (`e.id!`). -/
def Event.idStr (e : Event) : String := e.id.getD ""

inductive PluginMode where
  | async
  | sync
deriving DecidableEq, Repr

inductive ExecStrategy where
  | inline
  | worker
deriving DecidableEq, Repr

/-- `PluginMetadata` (only the field the router reads). -/
structure PluginMetadata where
  executionStrategy : Option ExecStrategy
deriving Repr

/-- The `events` filter of a plugin: a list of event names or a
predicate over the event name. -/
def EventsFilter := Sum (List String) (String → Bool)

/-- The context handed to every hook invocation
(`PluginManager.createContext`): the per-plugin config slice.
`emit`, `logger` and `http` carry no state the claims inspect. -/
structure PluginContext where
  pluginName : String
  config : List (String × String)
deriving DecidableEq, Repr

/-- A hook body: given the event and the context it either resolves or
rejects with an error message. -/
def Hook := Event → PluginContext → Except String Unit

/-- `Plugin` from `src/types/plugin`: a record of optional hooks. -/
structure Plugin where
  name : String
  mode : Option PluginMode
  events : Option EventsFilter
  onEvent : Option Hook
  onReplay : Option Hook
  onDLQ : Option Hook
  onError : Option (String → Event → PluginContext → Except String Unit)
  metadata : Option PluginMetadata

/-- `PluginManager` state: the registry (a JS `Map`, i.e. an
insertion-ordered association list), the manager-level config map and
the initialized flag. -/
structure PluginManager where
  plugins : List (String × Plugin)
  config : List (String × List (String × String))
  initialized : Bool

def PluginManager.getPlugin (m : PluginManager) (name : String) : Option Plugin :=
  (m.plugins.find? (fun kv => kv.1 = name)).map (·.2)

def PluginManager.listPlugins (m : PluginManager) : List String :=
  m.plugins.map (·.1)

/-- `register`: fail fast on a duplicate name, otherwise append to the
registry (a JS `Map.set` on a fresh key appends in insertion order). -/
def PluginManager.register (m : PluginManager) (p : Plugin) :
    PluginManager × Except String Unit :=
  if (m.plugins.find? (fun kv => kv.1 = p.name)).isSome then
    (m, Except.error ("Plugin \x22" ++ p.name ++ "\x22 already registered"))
  else
    ({ m with plugins := m.plugins ++ [(p.name, p)] }, Except.ok ())

/-- `registerAll`: `plugins.forEach(p => this.register(p))`; the first
failing `register` throws out of `forEach`, aborting the remainder while
keeping the registrations already performed. -/
def PluginManager.registerAll (m : PluginManager) :
    List Plugin → PluginManager × Except String Unit
  | [] => (m, Except.ok ())
  | p :: rest =>
    match m.register p with
    | (m1, Except.ok _) => m1.registerAll rest
    | (m1, Except.error e) => (m1, Except.error e)

/-- `shouldHandleEvent`: no filter matches everything; a list filter
matches by membership; a predicate filter is applied to the name. -/
def shouldHandleEvent (p : Plugin) (eventName : String) : Bool :=
  match p.events with
  | none => true
  | some (Sum.inl names) => names.contains eventName
  | some (Sum.inr f) => f eventName

/-- `createContext`: the plugin's slice of the manager config or the
empty map. -/
def createContext (cfg : List (String × List (String × String)))
    (pluginName : String) : PluginContext :=
  { pluginName := pluginName
    config := ((cfg.find? (fun kv => kv.1 = pluginName)).map (·.2)).getD [] }

inductive HookKind where
  | onEvent
  | onReplay
  | onDLQ
deriving DecidableEq, Repr

/-- The `strategy` argument of `executeHook`. -/
structure HookStrategy where
  hookName : HookKind
  errorContext : String
deriving DecidableEq, Repr

def eventStrategy : HookStrategy := { hookName := HookKind.onEvent, errorContext := "on event" }
def replayStrategy : HookStrategy := { hookName := HookKind.onReplay, errorContext := "on replay" }
def dlqStrategy : HookStrategy := { hookName := HookKind.onDLQ, errorContext := "on DLQ" }

/-- Hook resolution inside `executeHook`: read the strategy's hook off
the plugin; if it is missing and the strategy is `onReplay`, fall back
to `onEvent`. -/
def resolveHook (p : Plugin) (s : HookStrategy) : Option Hook :=
  let hook : Option Hook :=
    match s.hookName with
    | HookKind.onEvent => p.onEvent
    | HookKind.onReplay => p.onReplay
    | HookKind.onDLQ => p.onDLQ
  match hook with
  | none => if s.hookName = HookKind.onReplay then p.onEvent else none
  | some h => some h

/-- Observable outcome of dispatching one plugin for one event inside
`executeHook` (the body of the `Promise.allSettled` map). -/
structure PluginRun where
  pluginName : String
  logs : List (LogLevel × String)
  hookCalled : Bool
  hookErr : Option String
  onErrorCall : Option (String × Event × PluginContext)
  onErrorErr : Option String
deriving DecidableEq, Repr

/-- One plugin's dispatch: resolve the hook (with the replay fallback),
run it with a fresh context; on error log at `error`, invoke `onError`
when defined, and log-and-swallow an error raised inside `onError`.
Nothing escapes this function: the error never propagates. -/
def runPluginHook (cfg : List (String × List (String × String)))
    (s : HookStrategy) (p : Plugin) (e : Event) : PluginRun :=
  match resolveHook p s with
  | none =>
    { pluginName := p.name, logs := [], hookCalled := false
      hookErr := none, onErrorCall := none, onErrorErr := none }
  | some h =>
    let ctx := createContext cfg p.name
    match h e ctx with
    | Except.ok _ =>
      { pluginName := p.name, logs := [], hookCalled := true
        hookErr := none, onErrorCall := none, onErrorErr := none }
    | Except.error err =>
      let failLog : LogLevel × String :=
        (LogLevel.error, "Plugin \x22" ++ p.name ++ "\x22 failed " ++ s.errorContext ++ ":")
      match p.onError with
      | none =>
        { pluginName := p.name, logs := [failLog], hookCalled := true
          hookErr := some err, onErrorCall := none, onErrorErr := none }
      | some handler =>
        match handler err e ctx with
        | Except.ok _ =>
          { pluginName := p.name, logs := [failLog], hookCalled := true
            hookErr := some err, onErrorCall := some (err, e, ctx), onErrorErr := none }
        | Except.error err2 =>
          { pluginName := p.name
            logs := [failLog,
              (LogLevel.error, "Plugin \x22" ++ p.name ++ "\x22 onError handler failed:")]
            hookCalled := true, hookErr := some err
            onErrorCall := some (err, e, ctx), onErrorErr := some err2 }

/-- The plugins targeted by `executeHook`: the named subset of the
registry (in the order of `pluginNames`, silently dropping unknown
names) or the whole registry, filtered by `shouldHandleEvent`. -/
def targetsOf (m : PluginManager) (e : Event)
    (pluginNames : Option (List String)) : List Plugin :=
  let allPlugins : List Plugin :=
    match pluginNames with
    | some names => names.filterMap (fun n => m.getPlugin n)
    | none => m.plugins.map Prod.snd
  allPlugins.filter (fun p => shouldHandleEvent p e.name)

/-- Trace of one `executeHook` call: the per-plugin runs of the joined
`Promise.allSettled` group, serialised in target order. -/
structure ExecTrace where
  runs : List PluginRun
deriving DecidableEq, Repr

/-- `executeHook`: precondition check, target selection, and the joined
per-plugin dispatch.  `Promise.allSettled` never rejects, so the only
error is the initialization precondition. -/
def PluginManager.executeHook (m : PluginManager) (e : Event)
    (pluginNames : Option (List String)) (s : HookStrategy) :
    Except String ExecTrace :=
  if !m.initialized then
    Except.error "PluginManager not initialized. Call init() first."
  else
    Except.ok { runs := (targetsOf m e pluginNames).map (fun p => runPluginHook m.config s p e) }

def PluginManager.triggerEvent (m : PluginManager) (e : Event)
    (pluginNames : Option (List String) := none) : Except String ExecTrace :=
  m.executeHook e pluginNames eventStrategy

def PluginManager.triggerReplay (m : PluginManager) (e : Event)
    (pluginNames : Option (List String) := none) : Except String ExecTrace :=
  m.executeHook e pluginNames replayStrategy

def PluginManager.triggerDLQ (m : PluginManager) (e : Event)
    (pluginNames : Option (List String) := none) : Except String ExecTrace :=
  m.executeHook e pluginNames dlqStrategy

/-! ## Event Router -/

/-- `EventRouterConfig` from `src/types/event-router`. -/
structure EventRouterConfig where
  eventsTableName : String
  dlqUrl : Option String
  batchSize : Option Nat
  ttlDays : Option Nat
deriving DecidableEq, Repr

/-- The config the `EventRouter` constructor builds (defaults applied). -/
structure ResolvedConfig where
  eventsTableName : String
  dlqUrl : Option String
  batchSize : Nat
  ttlDays : Nat
deriving DecidableEq, Repr

/-- JS `x || d` on an optional number: absent and zero are falsy. -/
def orDefault (v : Option Nat) (d : Nat) : Nat :=
  match v with
  | none => d
  | some n => if n = 0 then d else n

/-- The `EventRouter` constructor: copy the table name and DLQ url,
default `batchSize` to 50 and `ttlDays` to 30 via JS `||`. -/
def mkRouterConfig (c : EventRouterConfig) : ResolvedConfig :=
  { eventsTableName := c.eventsTableName
    dlqUrl := c.dlqUrl
    batchSize := orDefault c.batchSize 50
    ttlDays := orDefault c.ttlDays 30 }

/-- Outcome environment for one `processBatch` run: the store's answer
to `batchCheckDuplicates`, the per-id outcome of each `storeEvent`
write, the outcome of the DLQ send, and the clock (epoch seconds). -/
structure RouterEnv where
  dedup : List String → Except String (List String)
  storeOk : String → Bool
  dlqOk : Bool
  now : Nat

/-- Parameters the router passes to `storeEvent`
(`src/services/dynamodb.ts`). -/
structure StoreEventParams where
  tableName : String
  eventId : String
  timestamp : Nat
  eventName : String
  source : String
  data : String
  retryCount : Option Nat
  ttlDays : Option Nat
deriving DecidableEq, Repr

/-- The item `storeEvent` writes.  `ttl` is present only when
`params.ttlDays` is truthy and the computed epoch value is truthy
(the source spreads `...(ttl && \x7b ttl \x7d)`). -/
structure EventRecord where
  eventId : String
  timestamp : Nat
  eventName : String
  source : String
  data : String
  status : String
  retryCount : Nat
  ttl : Option Nat
deriving DecidableEq, Repr

/-- `storeEvent` record construction from `src/services/dynamodb.ts`:
`ttl = params.ttlDays ? floor(now) + ttlDays*86400 : undefined`. -/
def storeEventRecord (nowSec : Nat) (p : StoreEventParams) : EventRecord :=
  let ttl : Option Nat :=
    match p.ttlDays with
    | none => none
    | some d => if d = 0 then none else some (nowSec + d * 24 * 60 * 60)
  { eventId := p.eventId
    timestamp := p.timestamp
    eventName := p.eventName
    source := p.source
    data := p.data
    status := "processed"
    retryCount := p.retryCount.getD 0
    ttl := match ttl with
      | none => none
      | some t => if t = 0 then none else some t }

/-- `batchDeduplication`: split on `!!e.id`; when nothing has an id
return the id-less events; otherwise ask the store for duplicates and
drop them, or on store error log and return the full input batch. -/
def batchDeduplication (env : RouterEnv) (events : List Event) :
    List (LogLevel × String) × List Event :=
  let eventsWithId := events.filter (fun e => e.truthyId)
  let eventsWithoutId := events.filter (fun e => !e.truthyId)
  if eventsWithId.length = 0 then
    ([], eventsWithoutId)
  else
    match env.dedup (eventsWithId.map (fun e => e.idStr)) with
    | Except.ok duplicateIds =>
      let uniqueEventsWithId :=
        eventsWithId.filter (fun e => !duplicateIds.contains e.idStr)
      let warnLogs :=
        if duplicateIds.length > 0 then
          [(LogLevel.warn,
            "Found " ++ toString duplicateIds.length ++ " duplicate events, skipping them")]
        else []
      (warnLogs, uniqueEventsWithId ++ eventsWithoutId)
    | Except.error _ =>
      ([(LogLevel.error,
         "Batch deduplication failed, falling back to processing all events:")],
       events)

/-- One `(event, plugins)` pair produced by `groupPluginsByMode`. -/
structure Group where
  event : Event
  plugins : List String
deriving DecidableEq, Repr

/-- The per-event classification loop body of `groupPluginsByMode`:
walk the registry, skip plugins whose `events` filter rejects the
event, and bucket the rest by `mode` and `metadata.executionStrategy`
(a plugin without a `mode` falls through the `switch` and lands in no
bucket). -/
def classifyFor (m : PluginManager) (e : Event) :
    List String × List String × List String :=
  m.listPlugins.foldl
    (fun (acc : List String × List String × List String) name =>
      match m.getPlugin name with
      | none => acc
      | some p =>
        if !shouldHandleEvent p e.name then acc
        else
          match p.mode with
          | some PluginMode.async => (acc.1 ++ [p.name], acc.2.1, acc.2.2)
          | some PluginMode.sync =>
            let strategy :=
              match p.metadata with
              | none => ExecStrategy.inline
              | some md => md.executionStrategy.getD ExecStrategy.inline
            if strategy = ExecStrategy.worker then
              (acc.1, acc.2.1, acc.2.2 ++ [p.name])
            else
              (acc.1, acc.2.1 ++ [p.name], acc.2.2)
          | none => acc)
    ([], [], [])

/-- `groupPluginsByMode`: per event, collect the three plugin-name
lists and emit a group for each non-empty one.  The source loop appends
to the three lists in event order, so each list equals the filterMap of
the events through its classifier. -/
def groupPluginsByMode (m : PluginManager) (events : List Event) :
    List Group × List Group × List Group :=
  (events.filterMap (fun e =>
     let c := classifyFor m e
     if c.1.length > 0 then some { event := e, plugins := c.1 } else none),
   events.filterMap (fun e =>
     let c := classifyFor m e
     if c.2.1.length > 0 then some { event := e, plugins := c.2.1 } else none),
   events.filterMap (fun e =>
     let c := classifyFor m e
     if c.2.2.length > 0 then some { event := e, plugins := c.2.2 } else none))

inductive Phase where
  | async
  | sync
deriving DecidableEq, Repr

instance (ε α : Type) [DecidableEq ε] [DecidableEq α] :
    DecidableEq (Except ε α) := fun a b =>
  match a, b with
  | Except.ok x, Except.ok y =>
    if h : x = y then Decidable.isTrue (by rw [h])
    else Decidable.isFalse (fun hh => h (by cases hh; rfl))
  | Except.error x, Except.error y =>
    if h : x = y then Decidable.isTrue (by rw [h])
    else Decidable.isFalse (fun hh => h (by cases hh; rfl))
  | Except.ok _, Except.error _ => Decidable.isFalse (fun hh => Except.noConfusion hh)
  | Except.error _, Except.ok _ => Decidable.isFalse (fun hh => Except.noConfusion hh)

/-- A router-level `pluginManager.triggerEvent(event, plugins)` call
together with its result. -/
structure TriggerCall where
  phase : Phase
  event : Event
  plugins : List String
  trace : Except String ExecTrace
deriving DecidableEq, Repr

/-- JS `Map.set`: overwrite in place or append. -/
def mapSet (l : List (String × String)) (k v : String) : List (String × String) :=
  if (l.find? (fun kv => kv.1 = k)).isSome then
    l.map (fun kv => if kv.1 = k then (k, v) else kv)
  else
    l ++ [(k, v)]

def mapGet (l : List (String × String)) (k : String) : Option String :=
  (l.find? (fun kv => kv.1 = k)).map (·.2)

/-- `new Map([...a, ...b])`: set every entry of `a` then of `b`. -/
def mapMerge (a b : List (String × String)) : List (String × String) :=
  (a ++ b).foldl (fun acc kv => mapSet acc kv.1 kv.2) []

/-- Dispatch one group in a phase: call `triggerEvent`; if the call
rejects (with the real manager this can only be the initialization
precondition), record the error under `event.id || event.name` and log
at `error`. -/
def runGroup (m : PluginManager) (phase : Phase) (errLabel : String) (g : Group) :
    TriggerCall × Option (String × String) × List (LogLevel × String) :=
  match m.triggerEvent g.event (some g.plugins) with
  | Except.ok t =>
    ({ phase := phase, event := g.event, plugins := g.plugins, trace := Except.ok t },
     none, t.runs.foldl (fun acc r => acc ++ r.logs) [])
  | Except.error msg =>
    ({ phase := phase, event := g.event, plugins := g.plugins, trace := Except.error msg },
     some (g.event.key, msg),
     [(LogLevel.error, errLabel ++ " plugins failed for event " ++ toString g.event.id ++ ":")])

/-- Result of one phase of group dispatch. -/
structure PhaseResult where
  calls : List TriggerCall
  errors : List (String × String)
  logs : List (LogLevel × String)

/-- `Promise.allSettled(groups.map(...))`: one trigger call per group;
the error map collects (in the model's serialisation order) the per
group captured errors; logs are concatenated in the same order. -/
def runGroups (m : PluginManager) (phase : Phase) (errLabel : String)
    (groups : List Group) : PhaseResult :=
  { calls := groups.map (fun g => (runGroup m phase errLabel g).1)
    errors := groups.foldl
      (fun acc g =>
        match (runGroup m phase errLabel g).2.1 with
        | some kv => mapSet acc kv.1 kv.2
        | none => acc) []
    logs := groups.foldl (fun acc g => acc ++ (runGroup m phase errLabel g).2.2) [] }

/-- `executeAsyncPlugins`: early return on no groups, else the joined
parallel dispatch plus the summary `info` log. -/
def executeAsyncPlugins (m : PluginManager) (groups : List Group) : PhaseResult :=
  if groups.length = 0 then
    { calls := [], errors := [], logs := [] }
  else
    let r := runGroups m Phase.async "Async" groups
    let totalPlugins := groups.foldl (fun s g => s + g.plugins.length) 0
    { r with logs := r.logs ++
        [(LogLevel.info,
          "Executed " ++ toString totalPlugins ++ " async plugin invocations across " ++
          toString groups.length ++ " events")] }

/-- `executeSyncPlugins`: warn (only) for the unimplemented worker
strategy, then the joined parallel dispatch of the inline groups. -/
def executeSyncPlugins (m : PluginManager)
    (inlineGroups workerGroups : List Group) : PhaseResult :=
  let warnLogs :=
    if workerGroups.length > 0 then
      let totalPlugins := workerGroups.foldl (fun s g => s + g.plugins.length) 0
      [(LogLevel.warn,
        "Worker Lambda invocation not implemented yet. Total: " ++
        toString totalPlugins ++ " plugin invocations across " ++
        toString workerGroups.length ++ " events")]
    else []
  let r := runGroups m Phase.sync "Sync inline" inlineGroups
  { r with logs := warnLogs ++ r.logs }

/-- `extractFailedEvents`: an event is failed iff its key is present in
either phase's error map. -/
def extractFailedEvents (events : List Event)
    (asyncErrors syncErrors : List (String × String)) : List Event :=
  events.filter (fun e =>
    (mapGet asyncErrors e.key).isSome || (mapGet syncErrors e.key).isSome)

/-- `batchStoreEvents`: store each succeeded event that has an id (in a
joined parallel group), then log either the aggregate failure count or
the success count. -/
def batchStoreEvents (cfg : ResolvedConfig) (env : RouterEnv)
    (events : List Event) :
    List (EventRecord × Bool) × List (LogLevel × String) :=
  let eventsWithId := events.filter (fun e => e.truthyId)
  if eventsWithId.length = 0 then
    ([], [])
  else
    let attempts := eventsWithId.map (fun e =>
      (storeEventRecord env.now
        { tableName := cfg.eventsTableName
          eventId := e.idStr
          timestamp := e.timestamp.getD env.now
          eventName := e.name
          source := e.source
          data := e.data
          retryCount := none
          ttlDays := some cfg.ttlDays },
       env.storeOk e.idStr))
    let failed := (attempts.filter (fun a => !a.2)).length
    let logs :=
      if failed > 0 then
        [(LogLevel.error,
          "Failed to store " ++ toString failed ++ "/" ++
          toString eventsWithId.length ++ " events in DynamoDB")]
      else
        [(LogLevel.info,
          "Stored " ++ toString eventsWithId.length ++ " events in DynamoDB")]
    (attempts, logs)

/-- One entry of the DLQ batch (`Id` plus the parsed `MessageBody`). -/
structure DlqEntry where
  entryId : String
  event : Event
  errMessage : String
  hasStack : Bool
deriving DecidableEq, Repr

/-- `sendToDLQ`: warn-and-drop without a configured DLQ url, otherwise
build one envelope per failed event (`error.message` defaults to
"Unknown error") and send them as a single batch; a send failure is
logged and swallowed. -/
def sendToDLQ (cfg : ResolvedConfig) (env : RouterEnv)
    (failedEvents : List Event) (errors : List (String × String)) :
    List (List DlqEntry) × List (LogLevel × String) :=
  match cfg.dlqUrl with
  | none =>
    ([], [(LogLevel.warn,
      toString failedEvents.length ++ " events failed but no DLQ configured. Events lost.")])
  | some _ =>
    let entries := failedEvents.enum.map (fun p =>
      { entryId := toString p.1
        event := p.2
        errMessage := (mapGet errors p.2.key).getD "Unknown error"
        hasStack := (mapGet errors p.2.key).isSome : DlqEntry })
    if env.dlqOk then
      ([entries], [(LogLevel.info,
        "Sent " ++ toString failedEvents.length ++ " failed events to DLQ")])
    else
      ([entries], [(LogLevel.error, "Failed to send events to DLQ:")])

/-- Observable outcome of one `processBatch` call. -/
structure BatchOutput where
  logs : List (LogLevel × String)
  calls : List TriggerCall
  storeAttempts : List (EventRecord × Bool)
  dlqBatches : List (List DlqEntry)
  result : Except String Unit

/-- The unique set `processBatch` computes in step 1. -/
def uniqueOf (env : RouterEnv) (events : List Event) : List Event :=
  (batchDeduplication env events).2

/-- The failed set `processBatch` computes in step 5. -/
def failedOf (m : PluginManager) (env : RouterEnv) (events : List Event) :
    List Event :=
  let uniqueEvents := uniqueOf env events
  let g := groupPluginsByMode m uniqueEvents
  let asyncR := executeAsyncPlugins m g.1
  let syncR := executeSyncPlugins m g.2.1 g.2.2
  extractFailedEvents uniqueEvents asyncR.errors syncR.errors

/-- The succeeded set `processBatch` computes in step 5
(`uniqueEvents.filter(e => !failedEvents.includes(e))`). -/
def successfulOf (m : PluginManager) (env : RouterEnv) (events : List Event) :
    List Event :=
  (uniqueOf env events).filter (fun e => !(failedOf m env events).contains e)

/-- `processBatch`: the seven-step pipeline.  Each `await` boundary of
the source is a sequential composition here; within a joined group the
model serialises in list order. -/
def processBatch (m : PluginManager) (cfg : ResolvedConfig) (env : RouterEnv)
    (events : List Event) : BatchOutput :=
  if events.length = 0 then
    { logs := [(LogLevel.info, "Empty batch, skipping processing")]
      calls := [], storeAttempts := [], dlqBatches := [], result := Except.ok () }
  else
    let logs0 := [(LogLevel.info,
      "Processing batch of " ++ toString events.length ++ " events")]
    let dedupR := batchDeduplication env events
    let uniqueEvents := dedupR.2
    let logs1 := logs0 ++ dedupR.1 ++
      [(LogLevel.info,
        "After deduplication: " ++ toString uniqueEvents.length ++ " unique events")]
    if uniqueEvents.length = 0 then
      { logs := logs1 ++ [(LogLevel.info, "All events are duplicates, skipping processing")]
        calls := [], storeAttempts := [], dlqBatches := [], result := Except.ok () }
    else
      let g := groupPluginsByMode m uniqueEvents
      let asyncR := executeAsyncPlugins m g.1
      let syncR := executeSyncPlugins m g.2.1 g.2.2
      let failedEvents := failedOf m env events
      let successfulEvents := successfulOf m env events
      let storeR := batchStoreEvents cfg env successfulEvents
      let dlqR :=
        if failedEvents.length > 0 then
          sendToDLQ cfg env failedEvents (mapMerge asyncR.errors syncR.errors)
        else ([], [])
      { logs := logs1 ++ asyncR.logs ++ syncR.logs ++ storeR.2 ++ dlqR.2 ++
          [(LogLevel.info,
            "Batch completed: " ++ toString successfulEvents.length ++ " succeeded, " ++
            toString failedEvents.length ++ " failed")]
        calls := asyncR.calls ++ syncR.calls
        storeAttempts := storeR.1
        dlqBatches := dlqR.1
        result := Except.ok () }

/-- The part of a `PluginRun` the plugin itself can observe (everything
except the manager's own log lines, whose text names the strategy). -/
def pluginView (r : PluginRun) :
    String × Bool × Option String × Option (String × Event × PluginContext) × Option String :=
  (r.pluginName, r.hookCalled, r.hookErr, r.onErrorCall, r.onErrorErr)

/-! ## Concrete fixtures used by witnesses and counterexamples -/

/-- An async plugin matching every event whose `onEvent` always rejects. -/
def pBoom : Plugin :=
  { name := "p", mode := some PluginMode.async, events := none
    onEvent := some (fun _ _ => Except.error "boom")
    onReplay := none, onDLQ := none, onError := none, metadata := none }

/-- A plugin with no `onReplay` but with `onEvent` and `onError`. -/
def pNoReplay : Plugin :=
  { name := "q", mode := some PluginMode.sync, events := none
    onEvent := some (fun e _ => if e.name = "x" then Except.error "joint" else Except.ok ())
    onReplay := none, onDLQ := none
    onError := some (fun _ _ _ => Except.error "handler down")
    metadata := none }

/-- A sync plugin with the worker execution strategy. -/
def pWorker : Plugin :=
  { name := "w", mode := some PluginMode.sync, events := none
    onEvent := some (fun _ _ => Except.ok ())
    onReplay := none, onDLQ := none, onError := none
    metadata := some { executionStrategy := some ExecStrategy.worker } }

/-- A sync inline plugin that always succeeds. -/
def pInline : Plugin :=
  { name := "i", mode := some PluginMode.sync, events := none
    onEvent := some (fun _ _ => Except.ok ())
    onReplay := none, onDLQ := none, onError := none, metadata := none }

def mBoom : PluginManager :=
  { plugins := [("p", pBoom)], config := [], initialized := true }

def mNone : PluginManager :=
  { plugins := [], config := [], initialized := true }

def mFresh : PluginManager :=
  { plugins := [], config := [], initialized := false }

def eA : Event :=
  { id := some "a", name := "x", source := "s", data := "d", timestamp := none }

def eB : Event :=
  { id := some "b", name := "x", source := "s", data := "d", timestamp := none }

def envOk : RouterEnv :=
  { dedup := fun _ => Except.ok [], storeOk := fun _ => true, dlqOk := true, now := 1000 }

def envDedupFails : RouterEnv :=
  { dedup := fun _ => Except.error "DynamoDB error", storeOk := fun _ => true
    dlqOk := true, now := 1000 }

def envStoreFails : RouterEnv :=
  { dedup := fun _ => Except.ok [], storeOk := fun _ => false, dlqOk := true, now := 1000 }

def cfgDlq : ResolvedConfig :=
  mkRouterConfig
    { eventsTableName := "events", dlqUrl := some "dlq-url"
      batchSize := none, ttlDays := none }

/-- The manager state after registering `pInline` on a fresh manager. -/
def m1W : PluginManager :=
  { plugins := [("i", pInline)], config := [], initialized := false }

/-! ## Theorems -/

/-- C1: the spec says an event whose hook failed is (a) not stored and
(b) sent to the DLQ with the captured error.  Evaluating the integrated
pipeline (router plus the real `PluginManager`) on a one-event batch
whose only matching plugin's `onEvent` rejects with "boom" shows the
opposite: the hook error is captured and swallowed inside
`executeHook`'s `Promise.allSettled`, so `triggerEvent` resolves, the
event is classified succeeded, it IS stored, and NO DLQ batch is sent.
The router's own error-capture branch (and hence the whole DLQ path) is
unreachable for plugin hook errors. -/
theorem c1_hook_failure_event_stored_and_not_dlqd :
    ((processBatch mBoom cfgDlq envOk [eA]).calls.map (fun c =>
        c.trace.toOption.map (fun t => t.runs.map (fun r => r.hookErr))) =
      [some [some "boom"]])
    ∧ (processBatch mBoom cfgDlq envOk [eA]).storeAttempts.map
        (fun a => (a.1.eventId, a.2)) = [("a", true)]
    ∧ (processBatch mBoom cfgDlq envOk [eA]).dlqBatches = [] := by
  exact ⟨rfl, rfl, rfl⟩

/-- C4: when the batch duplicate check itself raises, the router logs
at `error` and returns the full input batch unchanged. -/
theorem c4_dedup_failure_falls_back_to_all_events
    (env : RouterEnv) (events : List Event) (msg : String)
    (hne : (events.filter (fun e => e.truthyId)).length ≠ 0)
    (herr : env.dedup ((events.filter (fun e => e.truthyId)).map (fun e => e.idStr)) =
      Except.error msg) :
    (batchDeduplication env events).2 = events ∧
    (LogLevel.error, "Batch deduplication failed, falling back to processing all events:")
      ∈ (batchDeduplication env events).1 := by
  unfold batchDeduplication
  rw [if_neg hne, herr]
  exact ⟨rfl, List.mem_singleton.mpr rfl⟩

/-- Witness for C4 at a concrete one-event batch and a store whose
duplicate check rejects. -/
theorem c4_witness :
    ([eA].filter (fun e => e.truthyId)).length ≠ 0 ∧
    (batchDeduplication envDedupFails [eA]).2 = [eA] ∧
    (LogLevel.error, "Batch deduplication failed, falling back to processing all events:")
      ∈ (batchDeduplication envDedupFails [eA]).1 := by
  have h := c4_dedup_failure_falls_back_to_all_events envDedupFails [eA] "DynamoDB error"
    (by decide) rfl
  exact ⟨by decide, h.1, h.2⟩

/-- `orDefault` never returns zero when the default is non-zero. -/
theorem orDefault_ne_zero (v : Option Nat) (d : Nat) (hd : d ≠ 0) :
    orDefault v d ≠ 0 := by
  cases v with
  | none => exact hd
  | some n =>
    by_cases hn : n = 0
    · simp [orDefault, hn]; exact hd
    · simp [orDefault, hn]

/-- Every record produced by `batchStoreEvents` carries a `ttl`
attribute when the resolved config's `ttlDays` is non-zero. -/
theorem batchStoreEvents_ttl_isSome (cfg : ResolvedConfig) (env : RouterEnv)
    (events : List Event) (h : cfg.ttlDays ≠ 0) :
    ∀ a ∈ (batchStoreEvents cfg env events).1, a.1.ttl.isSome = true := by
  intro a ha
  unfold batchStoreEvents at ha
  dsimp only at ha
  split at ha
  · simp at ha
  · obtain ⟨e, _, rfl⟩ := List.mem_map.mp ha
    have hne : env.now + cfg.ttlDays * 24 * 60 * 60 ≠ 0 := by
      have : cfg.ttlDays ≠ 0 := h
      omega
    simp [storeEventRecord, h, hne]

/-- `processBatch`'s store attempts always come from one
`batchStoreEvents` call (possibly on the empty list). -/
theorem processBatch_storeAttempts_shape (m : PluginManager)
    (cfg : ResolvedConfig) (env : RouterEnv) (events : List Event) :
    ∃ evs, (processBatch m cfg env events).storeAttempts =
      (batchStoreEvents cfg env evs).1 := by
  unfold processBatch
  split
  · exact ⟨[], by simp [batchStoreEvents]⟩
  · dsimp only
    split
    · exact ⟨[], by simp [batchStoreEvents]⟩
    · exact ⟨_, rfl⟩

/-- C9: the constructor treats falsy (zero) `batchSize` and `ttlDays`
exactly like absent ones — zero resolves to the same config as an
explicit 50 resp. 30 — and since the resolved `ttlDays` is therefore
never zero, every record the router stores carries a `ttl` attribute. -/
theorem c9_falsy_config_defaults (c : EventRouterConfig) :
    mkRouterConfig { c with batchSize := some 0 } =
      mkRouterConfig { c with batchSize := some 50 }
    ∧ mkRouterConfig { c with ttlDays := some 0 } =
      mkRouterConfig { c with ttlDays := some 30 }
    ∧ ∀ (m : PluginManager) (env : RouterEnv) (events : List Event),
        ∀ a ∈ (processBatch m (mkRouterConfig c) env events).storeAttempts,
          a.1.ttl.isSome = true := by
  refine ⟨by simp [mkRouterConfig, orDefault], by simp [mkRouterConfig, orDefault], ?_⟩
  intro m env events a ha
  obtain ⟨evs, hshape⟩ := processBatch_storeAttempts_shape m (mkRouterConfig c) env events
  rw [hshape] at ha
  exact batchStoreEvents_ttl_isSome (mkRouterConfig c) env evs
    (orDefault_ne_zero c.ttlDays 30 (by decide)) a ha

/-- Two strategies that resolve to the same hook produce the same
plugin-visible outcome (only the manager's log text can differ). -/
theorem pluginView_congr (cfg : List (String × List (String × String)))
    (s1 s2 : HookStrategy) (p : Plugin) (e : Event)
    (hres : resolveHook p s1 = resolveHook p s2) :
    pluginView (runPluginHook cfg s1 p e) =
      pluginView (runPluginHook cfg s2 p e) := by
  unfold runPluginHook
  rw [hres]
  cases hr : resolveHook p s2 with
  | none => rfl
  | some hkfn =>
    dsimp only
    cases hc : hkfn e (createContext cfg p.name) with
    | ok u => rfl
    | error err =>
      dsimp only
      cases ho : p.onError with
      | none => rfl
      | some handler =>
        dsimp only
        cases h2 : handler err e (createContext cfg p.name) with
        | ok u => rfl
        | error e2 => rfl

/-- C5: for a plugin without `onReplay`, `executeHook` under the replay
strategy resolves to the plugin's `onEvent` hook, and the whole
plugin-visible outcome (hook invocation, captured error, `onError`
call with the same event and context) is the one `triggerEvent` would
produce. -/
theorem c5_replay_falls_back_to_onEvent
    (cfg : List (String × List (String × String))) (p : Plugin) (e : Event)
    (h : p.onReplay = none) :
    resolveHook p replayStrategy = p.onEvent ∧
    pluginView (runPluginHook cfg replayStrategy p e) =
      pluginView (runPluginHook cfg eventStrategy p e) := by
  have h1 : resolveHook p replayStrategy = p.onEvent := by
    simp [resolveHook, replayStrategy, h]
  have h2 : resolveHook p eventStrategy = p.onEvent := by
    cases hpe : p.onEvent <;> simp [resolveHook, eventStrategy, hpe]
  exact ⟨h1, pluginView_congr cfg replayStrategy eventStrategy p e (h1.trans h2.symm)⟩

/-- Witness for C5 at a concrete plugin without `onReplay`. -/
theorem c5_witness :
    pNoReplay.onReplay = none ∧
    (resolveHook pNoReplay replayStrategy = pNoReplay.onEvent ∧
     pluginView (runPluginHook [] replayStrategy pNoReplay eA) =
       pluginView (runPluginHook [] eventStrategy pNoReplay eA)) :=
  ⟨rfl, c5_replay_falls_back_to_onEvent [] pNoReplay eA rfl⟩

/-- C2: on an initialized manager each of the three triggers resolves
(no plugin error escapes), and for every matched plugin whose resolved
hook raised: the manager logged the failure at `error`; if the plugin
defines `onError` it was called with the error, the event and the
plugin's context; and an error raised inside `onError` was only
logged. -/
theorem c2_trigger_swallows_plugin_errors
    (m : PluginManager) (h : m.initialized = true)
    (e : Event) (ns : Option (List String)) :
    (∃ t, m.triggerEvent e ns = Except.ok t) ∧
    (∃ t, m.triggerReplay e ns = Except.ok t) ∧
    (∃ t, m.triggerDLQ e ns = Except.ok t) ∧
    (∀ s : HookStrategy, ∀ p ∈ targetsOf m e ns, ∀ msg,
      (runPluginHook m.config s p e).hookErr = some msg →
        (LogLevel.error, "Plugin \x22" ++ p.name ++ "\x22 failed " ++ s.errorContext ++ ":")
          ∈ (runPluginHook m.config s p e).logs
        ∧ (p.onError.isSome = true →
            (runPluginHook m.config s p e).onErrorCall =
              some (msg, e, createContext m.config p.name))
        ∧ ∀ msg2, (runPluginHook m.config s p e).onErrorErr = some msg2 →
            (LogLevel.error, "Plugin \x22" ++ p.name ++ "\x22 onError handler failed:")
              ∈ (runPluginHook m.config s p e).logs) := by
  have hk : ∀ s, m.executeHook e ns s = Except.ok
      { runs := (targetsOf m e ns).map (fun p => runPluginHook m.config s p e) } := by
    intro s
    simp [PluginManager.executeHook, h]
  refine ⟨⟨_, hk _⟩, ⟨_, hk _⟩, ⟨_, hk _⟩, ?_⟩
  intro s p _ msg
  unfold runPluginHook
  cases hr : resolveHook p s with
  | none =>
    intro hmsg
    simp at hmsg
  | some hkfn =>
    dsimp only
    cases hc : hkfn e (createContext m.config p.name) with
    | ok u =>
      intro hmsg
      simp at hmsg
    | error err =>
      dsimp only
      cases ho : p.onError with
      | none =>
        dsimp only
        intro hmsg
        refine ⟨List.mem_singleton.mpr rfl, ?_, ?_⟩
        · intro hsome
          simp at hsome
        · intro msg2 habs
          simp at habs
      | some handler =>
        dsimp only
        cases h2 : handler err e (createContext m.config p.name) with
        | ok u =>
          dsimp only
          intro hmsg
          obtain rfl : err = msg := Option.some_inj.mp hmsg
          refine ⟨List.mem_cons_self _ _, fun _ => rfl, ?_⟩
          intro msg2 habs
          simp at habs
        | error e2 =>
          dsimp only
          intro hmsg
          obtain rfl : err = msg := Option.some_inj.mp hmsg
          exact ⟨List.mem_cons_self _ _, fun _ => rfl,
            fun msg2 _ => List.mem_cons_of_mem _ (List.mem_singleton.mpr rfl)⟩

/-- Witness for C2 at a concrete initialized manager whose only plugin
always rejects. -/
theorem c2_witness :
    mBoom.initialized = true ∧
    (∃ t, mBoom.triggerEvent eA none = Except.ok t) ∧
    (∃ t, mBoom.triggerReplay eA none = Except.ok t) ∧
    (∃ t, mBoom.triggerDLQ eA none = Except.ok t) :=
  ⟨rfl,
   (c2_trigger_swallows_plugin_errors mBoom rfl eA none).1,
   (c2_trigger_swallows_plugin_errors mBoom rfl eA none).2.1,
   (c2_trigger_swallows_plugin_errors mBoom rfl eA none).2.2.1⟩

/-- `runGroup` keeps the group's event, plugin list and phase. -/
theorem runGroup_fields (m : PluginManager) (ph : Phase) (lbl : String)
    (g : Group) :
    (runGroup m ph lbl g).1.phase = ph ∧
    (runGroup m ph lbl g).1.event = g.event ∧
    (runGroup m ph lbl g).1.plugins = g.plugins := by
  unfold runGroup
  split
  · exact ⟨rfl, rfl, rfl⟩
  · exact ⟨rfl, rfl, rfl⟩

/-- C7: whenever the sync-worker group list is non-empty,
`executeSyncPlugins` logs the skip warning with the invocation count,
and the trigger calls it makes are exactly the sync-inline groups (no
worker group is ever dispatched). -/
theorem c7_worker_strategy_skipped_with_warning
    (m : PluginManager) (inlineGroups workerGroups : List Group)
    (h : workerGroups ≠ []) :
    (LogLevel.warn,
      "Worker Lambda invocation not implemented yet. Total: " ++
      toString (workerGroups.foldl (fun s g => s + g.plugins.length) 0) ++
      " plugin invocations across " ++ toString workerGroups.length ++ " events")
      ∈ (executeSyncPlugins m inlineGroups workerGroups).logs
    ∧ (executeSyncPlugins m inlineGroups workerGroups).calls.map
        (fun c => (c.event, c.plugins)) =
      inlineGroups.map (fun g => (g.event, g.plugins)) := by
  constructor
  · have hlen : workerGroups.length > 0 := List.length_pos.mpr h
    unfold executeSyncPlugins
    dsimp only
    rw [if_pos hlen]
    exact List.mem_append_left _ (List.mem_singleton.mpr rfl)
  · show ((runGroups m Phase.sync "Sync inline" inlineGroups).calls).map _ = _
    unfold runGroups
    dsimp only
    rw [List.map_map]
    apply List.map_congr_left
    intro g _
    have hf := runGroup_fields m Phase.sync "Sync inline" g
    simp [Function.comp, hf.2.1, hf.2.2]

/-- All calls of one phase dispatch carry that phase. -/
theorem runGroups_phases (m : PluginManager) (ph : Phase) (lbl : String)
    (gs : List Group) :
    (runGroups m ph lbl gs).calls.map (fun c => c.phase) =
      List.replicate gs.length ph := by
  unfold runGroups
  dsimp only
  induction gs with
  | nil => rfl
  | cons g rest ih =>
    simp only [List.map_cons, List.length_cons, List.replicate_succ, ih,
      (runGroup_fields m ph lbl g).1]

/-- Phase A calls are all async-phase calls. -/
theorem executeAsyncPlugins_phases (m : PluginManager) (gs : List Group) :
    ∃ a, (executeAsyncPlugins m gs).calls.map (fun c => c.phase) =
      List.replicate a Phase.async := by
  unfold executeAsyncPlugins
  dsimp only
  split
  · exact ⟨0, rfl⟩
  · exact ⟨gs.length, runGroups_phases m Phase.async "Async" gs⟩

/-- Phase B calls are all sync-phase calls. -/
theorem executeSyncPlugins_phases (m : PluginManager)
    (ig wg : List Group) :
    (executeSyncPlugins m ig wg).calls.map (fun c => c.phase) =
      List.replicate ig.length Phase.sync := by
  unfold executeSyncPlugins
  dsimp only
  exact runGroups_phases m Phase.sync "Sync inline" ig

/-- C6: in every `processBatch` run, the trigger-call trace is a block
of async-phase dispatches followed by a block of sync-phase
dispatches — Phase A is joined strictly before Phase B begins. -/
theorem c6_async_phase_strictly_before_sync (m : PluginManager)
    (cfg : ResolvedConfig) (env : RouterEnv) (events : List Event) :
    ∃ a b, (processBatch m cfg env events).calls.map (fun c => c.phase) =
      List.replicate a Phase.async ++ List.replicate b Phase.sync := by
  unfold processBatch
  split
  · exact ⟨0, 0, rfl⟩
  · dsimp only
    split
    · exact ⟨0, 0, rfl⟩
    · obtain ⟨a, ha⟩ := executeAsyncPlugins_phases m
        (groupPluginsByMode m (batchDeduplication env events).2).1
      refine ⟨a, (groupPluginsByMode m (batchDeduplication env events).2).2.1.length, ?_⟩
      dsimp only
      rw [List.map_append, ha, executeSyncPlugins_phases]

/-- A truthy id is a present, non-empty id. -/
theorem truthyId_true_cases (e : Event) (h : e.truthyId = true) :
    ∃ s, e.id = some s ∧ s ≠ "" := by
  unfold Event.truthyId at h
  cases hid : e.id with
  | none => rw [hid] at h; simp at h
  | some s =>
    rw [hid] at h
    exact ⟨s, rfl, by simpa using h⟩

/-- A falsy id is an absent or empty id. -/
theorem truthyId_false_cases (e : Event) (h : e.truthyId = false) :
    e.id = none ∨ e.id = some "" := by
  unfold Event.truthyId at h
  cases hid : e.id with
  | none => exact Or.inl rfl
  | some s =>
    rw [hid] at h
    simp at h
    exact Or.inr (by rw [h])

/-- `e.id!` for a present id. -/
theorem idStr_eq (e : Event) (s : String) (h : e.id = some s) : e.idStr = s := by
  simp [Event.idStr, h]

/-- A truthy id is a non-empty id string. -/
theorem truthyId_idStr_ne (e : Event) (h : e.truthyId = true) : e.idStr ≠ "" := by
  obtain ⟨s, hid, hs⟩ := truthyId_true_cases e h
  rw [idStr_eq e s hid]
  exact hs

/-- Every id the router sends to the duplicate check is non-empty. -/
theorem dedup_ids_ne_empty (events : List Event) :
    ∀ s ∈ (events.filter (fun e => e.truthyId)).map (fun e => e.idStr), s ≠ "" := by
  intro s hs
  obtain ⟨e, he, rfl⟩ := List.mem_map.mp hs
  exact truthyId_idStr_ne e (List.mem_filter.mp he).2

/-- Async groups only contain events of the input list. -/
theorem groupPluginsByMode_mem (m : PluginManager) (events : List Event) :
    (∀ g ∈ (groupPluginsByMode m events).1, g.event ∈ events) ∧
    (∀ g ∈ (groupPluginsByMode m events).2.1, g.event ∈ events) ∧
    (∀ g ∈ (groupPluginsByMode m events).2.2, g.event ∈ events) := by
  unfold groupPluginsByMode
  refine ⟨?_, ?_, ?_⟩ <;>
  · intro g hg
    obtain ⟨e, he, hfe⟩ := List.mem_filterMap.mp hg
    dsimp only at hfe
    split at hfe
    · cases hfe
      exact he
    · cases hfe

/-- Phase A trigger calls come from the async groups. -/
theorem executeAsyncPlugins_calls_mem (m : PluginManager) (gs : List Group) :
    ∀ c ∈ (executeAsyncPlugins m gs).calls, ∃ g ∈ gs, c.event = g.event := by
  intro c hc
  unfold executeAsyncPlugins at hc
  dsimp only at hc
  split at hc
  · simp at hc
  · obtain ⟨g, hg, rfl⟩ := List.mem_map.mp hc
    exact ⟨g, hg, (runGroup_fields m Phase.async "Async" g).2.1⟩

/-- Phase B trigger calls come from the sync-inline groups. -/
theorem executeSyncPlugins_calls_mem (m : PluginManager) (ig wg : List Group) :
    ∀ c ∈ (executeSyncPlugins m ig wg).calls, ∃ g ∈ ig, c.event = g.event := by
  intro c hc
  unfold executeSyncPlugins at hc
  dsimp only at hc
  obtain ⟨g, hg, rfl⟩ := List.mem_map.mp hc
  exact ⟨g, hg, (runGroup_fields m Phase.sync "Sync inline" g).2.1⟩

/-- Every trigger call of a batch is on an event of the unique set. -/
theorem processBatch_calls_unique (m : PluginManager) (cfg : ResolvedConfig)
    (env : RouterEnv) (events : List Event) :
    ∀ c ∈ (processBatch m cfg env events).calls,
      c.event ∈ uniqueOf env events := by
  intro c hc
  unfold processBatch at hc
  split at hc
  · simp at hc
  · dsimp only at hc
    split at hc
    · simp at hc
    · rw [List.mem_append] at hc
      cases hc with
      | inl h =>
        obtain ⟨g, hg, hce⟩ := executeAsyncPlugins_calls_mem m _ c h
        rw [hce]
        exact (groupPluginsByMode_mem m _).1 g hg
      | inr h =>
        obtain ⟨g, hg, hce⟩ := executeSyncPlugins_calls_mem m _ _ c h
        rw [hce]
        exact (groupPluginsByMode_mem m _).2.1 g hg

/-- C3: given the store's duplicate answer `D` (a subset of the ids it
was asked about), the unique set consists exactly of the events whose
id is absent together with those whose id is not in `D`; and every
plugin dispatch of the batch is on an event of that unique set. -/
theorem c3_unique_set_characterisation (env : RouterEnv) (events : List Event)
    (D : List String)
    (hok : env.dedup ((events.filter (fun e => e.truthyId)).map (fun e => e.idStr)) =
      Except.ok D)
    (hsub : ∀ s ∈ D, s ∈ (events.filter (fun e => e.truthyId)).map (fun e => e.idStr)) :
    (∀ e : Event, e ∈ uniqueOf env events ↔
      e ∈ events ∧ (e.id = none ∨ ∀ s, e.id = some s → s ∉ D))
    ∧ ∀ (m : PluginManager) (cfg : ResolvedConfig) (c : TriggerCall),
        c ∈ (processBatch m cfg env events).calls → c.event ∈ uniqueOf env events := by
  have hD : ∀ s ∈ D, s ≠ "" := fun s hs => dedup_ids_ne_empty events s (hsub s hs)
  refine ⟨?_, fun m cfg c hc => processBatch_calls_unique m cfg env events c hc⟩
  intro e
  unfold uniqueOf batchDeduplication
  dsimp only
  split
  · -- no event has a truthy id
    rename_i hlen
    have hnil : events.filter (fun e => e.truthyId) = [] := List.length_eq_zero.mp hlen
    have hall : ∀ x ∈ events, ¬(x.truthyId = true) := List.filter_eq_nil_iff.mp hnil
    have hDnil : D = [] := by
      cases hD2 : D with
      | nil => rfl
      | cons s rest =>
        exfalso
        have := hsub s (hD2 ▸ List.mem_cons_self s rest)
        rw [hnil] at this
        simp at this
    constructor
    · intro he
      have hmem := (List.mem_filter.mp he).1
      refine ⟨hmem, ?_⟩
      cases hid : e.id with
      | none => exact Or.inl rfl
      | some s =>
        refine Or.inr ?_
        intro s2 _ hmemD
        rw [hDnil] at hmemD
        simp at hmemD
    · intro ⟨hmem, _⟩
      refine List.mem_filter.mpr ⟨hmem, ?_⟩
      have hf : e.truthyId = false := Bool.eq_false_iff.mpr (hall e hmem)
      simp [hf]
  · -- the duplicate check ran and returned D
    rw [hok]
    dsimp only
    rw [List.mem_append]
    constructor
    · intro h
      rcases h with hA | hB
      · have h1 := List.mem_filter.mp hA
        have h2 := List.mem_filter.mp h1.1
        have hnd := h1.2
        obtain ⟨s, hid, _⟩ := truthyId_true_cases e h2.2
        refine ⟨h2.1, Or.inr ?_⟩
        intro s2 hs2 hmemD
        rw [hid] at hs2
        cases hs2
        rw [idStr_eq e s hid] at hnd
        simp [List.contains] at hnd
        exact hnd hmemD
      · have h1 := List.mem_filter.mp hB
        have hf : e.truthyId = false := by
          have := h1.2
          rwa [Bool.not_eq_true'] at this
        rcases truthyId_false_cases e hf with hid | hid
        · exact ⟨h1.1, Or.inl hid⟩
        · refine ⟨h1.1, Or.inr ?_⟩
          intro s2 hs2 hmemD
          rw [hid] at hs2
          cases hs2
          exact hD "" hmemD rfl
    · rintro ⟨hmem, hcond⟩
      by_cases htr : e.truthyId = true
      · left
        refine List.mem_filter.mpr ⟨List.mem_filter.mpr ⟨hmem, htr⟩, ?_⟩
        obtain ⟨s, hid, _⟩ := truthyId_true_cases e htr
        have hsD : s ∉ D := by
          rcases hcond with hnone | hall2
          · rw [hid] at hnone
            cases hnone
          · exact hall2 s hid
        rw [idStr_eq e s hid]
        simp [List.contains, hsD]
      · right
        refine List.mem_filter.mpr ⟨hmem, ?_⟩
        have hf : e.truthyId = false := Bool.eq_false_iff.mpr htr
        simp [hf]

/-- Witness for C3: a two-event batch where the store reports `b` as a
duplicate — only `a` survives, and the processed batch only triggers
plugins on `a`. -/
theorem c3_witness :
    (({ dedup := fun _ => Except.ok ["b"], storeOk := fun _ => true
        dlqOk := true, now := 1000 } : RouterEnv).dedup
      ((([eA, eB]).filter (fun e => e.truthyId)).map (fun e => e.idStr)) =
        Except.ok ["b"])
    ∧ (∀ s ∈ ["b"],
        s ∈ (([eA, eB]).filter (fun e => e.truthyId)).map (fun e => e.idStr))
    ∧ (eA ∈ uniqueOf
        { dedup := fun _ => Except.ok ["b"], storeOk := fun _ => true
          dlqOk := true, now := 1000 } [eA, eB] ↔
       eA ∈ [eA, eB] ∧ (eA.id = none ∨ ∀ s, eA.id = some s → s ∉ ["b"])) := by
  refine ⟨rfl, by decide, ?_⟩
  exact (c3_unique_set_characterisation
    { dedup := fun _ => Except.ok ["b"], storeOk := fun _ => true
      dlqOk := true, now := 1000 } [eA, eB] ["b"] rfl (by decide)).1 eA

/-- `processBatch` never surfaces an error in the model: every failure
in the pipeline is caught and logged. -/
theorem processBatch_result_ok (m : PluginManager) (cfg : ResolvedConfig)
    (env : RouterEnv) (events : List Event) :
    (processBatch m cfg env events).result = Except.ok () := by
  unfold processBatch
  split
  · rfl
  · dsimp only
    split
    · rfl
    · rfl

/-- DLQ entries are envelopes of the failed events only. -/
theorem sendToDLQ_entry_events (cfg : ResolvedConfig) (env : RouterEnv)
    (failedEvents : List Event) (errors : List (String × String)) :
    ∀ batch ∈ (sendToDLQ cfg env failedEvents errors).1, ∀ entry ∈ batch,
      entry.event ∈ failedEvents := by
  intro batch hb entry he
  unfold sendToDLQ at hb
  split at hb
  · simp at hb
  · dsimp only at hb
    split at hb <;>
    · dsimp only at hb
      rw [List.mem_singleton] at hb
      subst hb
      obtain ⟨p, hp, rfl⟩ := List.mem_map.mp he
      exact List.getElem?_mem (List.mem_enum_iff_getElem?.mp hp)

/-- Every DLQ'd event of a batch comes from the failed set. -/
theorem processBatch_dlq_events (m : PluginManager) (cfg : ResolvedConfig)
    (env : RouterEnv) (events : List Event) :
    ∀ batch ∈ (processBatch m cfg env events).dlqBatches, ∀ entry ∈ batch,
      entry.event ∈ failedOf m env events := by
  intro batch hb entry he
  unfold processBatch at hb
  split at hb
  · simp at hb
  · dsimp only at hb
    split at hb
    · simp at hb
    · split at hb
      · exact sendToDLQ_entry_events cfg env _ _ batch hb entry he
      · simp at hb

/-- An event of the succeeded set is not in the failed set. -/
theorem successfulOf_not_failed (m : PluginManager) (env : RouterEnv)
    (events : List Event) (e : Event) (h : e ∈ successfulOf m env events) :
    e ∉ failedOf m env events := by
  have h2 := (List.mem_filter.mp h).2
  rw [Bool.not_eq_true'] at h2
  intro hmem
  have hc : (failedOf m env events).contains e = true := by
    simp [List.contains, hmem]
  rw [hc] at h2
  cases h2

/-- A member of the store batch whose write fails forces the aggregate
failure log of `batchStoreEvents`. -/
theorem batchStoreEvents_failure_log (cfg : ResolvedConfig) (env : RouterEnv)
    (evs : List Event) (e : Event)
    (he : e ∈ evs) (hid : e.truthyId = true)
    (hfail : env.storeOk e.idStr = false) :
    ∃ (f t : Nat), (LogLevel.error,
      "Failed to store " ++ toString f ++ "/" ++ toString t ++ " events in DynamoDB")
      ∈ (batchStoreEvents cfg env evs).2 := by
  have hmem : e ∈ evs.filter (fun e => e.truthyId) := List.mem_filter.mpr ⟨he, hid⟩
  have hlen : ¬(evs.filter (fun e => e.truthyId)).length = 0 := by
    intro h0
    rw [List.length_eq_zero.mp h0] at hmem
    simp at hmem
  unfold batchStoreEvents
  dsimp only
  rw [if_neg hlen]
  dsimp only
  split
  · exact ⟨_, _, List.mem_singleton.mpr rfl⟩
  · rename_i hc
    exfalso
    apply hc
    apply List.length_pos.mpr
    apply List.ne_nil_of_mem (a :=
      (storeEventRecord env.now
        { tableName := cfg.eventsTableName, eventId := e.idStr
          timestamp := e.timestamp.getD env.now, eventName := e.name
          source := e.source, data := e.data, retryCount := none
          ttlDays := some cfg.ttlDays }, env.storeOk e.idStr))
    apply List.mem_filter.mpr
    refine ⟨List.mem_map.mpr ⟨e, hmem, rfl⟩, ?_⟩
    rw [hfail]
    rfl

/-- The batch's log stream contains every log line `batchStoreEvents`
produced (when the main pipeline branch runs). -/
theorem processBatch_logs_include_store (m : PluginManager)
    (cfg : ResolvedConfig) (env : RouterEnv) (events : List Event)
    (h1 : ¬events.length = 0) (h2 : ¬(uniqueOf env events).length = 0) :
    ∀ x ∈ (batchStoreEvents cfg env (successfulOf m env events)).2,
      x ∈ (processBatch m cfg env events).logs := by
  intro x hx
  unfold processBatch
  rw [if_neg h1]
  dsimp only
  have h2' : ¬((batchDeduplication env events).2.length = 0) := h2
  rw [if_neg h2']
  dsimp only
  simp only [List.mem_append]
  tauto

/-- C8: a succeeded event whose durable store write fails is logged in
the aggregate failure count but not reclassified: `processBatch` still
returns success, and the event never appears in any DLQ batch. -/
theorem c8_store_failure_not_reclassified (m : PluginManager)
    (cfg : ResolvedConfig) (env : RouterEnv) (events : List Event) (e : Event)
    (hsucc : e ∈ successfulOf m env events)
    (hid : e.truthyId = true)
    (hfail : env.storeOk e.idStr = false) :
    (processBatch m cfg env events).result = Except.ok ()
    ∧ (∀ batch ∈ (processBatch m cfg env events).dlqBatches,
        ∀ entry ∈ batch, entry.event ≠ e)
    ∧ ∃ (f t : Nat), (LogLevel.error,
        "Failed to store " ++ toString f ++ "/" ++ toString t ++ " events in DynamoDB")
        ∈ (processBatch m cfg env events).logs := by
  have hu : e ∈ uniqueOf env events := (List.mem_filter.mp hsucc).1
  have h2 : ¬(uniqueOf env events).length = 0 := by
    intro h0
    rw [List.length_eq_zero.mp h0] at hu
    simp at hu
  have h1 : ¬events.length = 0 := by
    intro h0
    rw [List.length_eq_zero.mp h0] at hu
    revert hu
    unfold uniqueOf batchDeduplication
    simp
  refine ⟨processBatch_result_ok m cfg env events, ?_, ?_⟩
  · intro batch hb entry he hEq
    have hmem := processBatch_dlq_events m cfg env events batch hb entry he
    rw [hEq] at hmem
    exact successfulOf_not_failed m env events e hsucc hmem
  · obtain ⟨f, t, hlog⟩ :=
      batchStoreEvents_failure_log cfg env (successfulOf m env events) e hsucc hid hfail
    exact ⟨f, t, processBatch_logs_include_store m cfg env events h1 h2 _ hlog⟩

/-- Witness for C8: a one-event batch, no matching plugin, and a store
whose write always fails. -/
theorem c8_witness :
    eA ∈ successfulOf mNone envStoreFails [eA]
    ∧ eA.truthyId = true
    ∧ envStoreFails.storeOk eA.idStr = false
    ∧ ((processBatch mNone cfgDlq envStoreFails [eA]).result = Except.ok ()
       ∧ (∀ batch ∈ (processBatch mNone cfgDlq envStoreFails [eA]).dlqBatches,
           ∀ entry ∈ batch, entry.event ≠ eA)
       ∧ ∃ (f t : Nat), (LogLevel.error,
           "Failed to store " ++ toString f ++ "/" ++ toString t ++ " events in DynamoDB")
           ∈ (processBatch mNone cfgDlq envStoreFails [eA]).logs) := by
  refine ⟨by decide, by decide, rfl, ?_⟩
  exact c8_store_failure_not_reclassified mNone cfgDlq envStoreFails [eA] eA
    (by decide) (by decide) rfl

/-- Witness for C7: one inline group and one worker group. -/
theorem c7_witness :
    ([⟨eB, ["w"]⟩] : List Group) ≠ [] ∧
    ((LogLevel.warn,
      "Worker Lambda invocation not implemented yet. Total: " ++
      toString (([⟨eB, ["w"]⟩] : List Group).foldl (fun s g => s + g.plugins.length) 0) ++
      " plugin invocations across " ++ toString ([⟨eB, ["w"]⟩] : List Group).length ++ " events")
      ∈ (executeSyncPlugins mBoom [⟨eA, ["i"]⟩] [⟨eB, ["w"]⟩]).logs
    ∧ (executeSyncPlugins mBoom [⟨eA, ["i"]⟩] [⟨eB, ["w"]⟩]).calls.map
        (fun c => (c.event, c.plugins)) =
      ([⟨eA, ["i"]⟩] : List Group).map (fun g => (g.event, g.plugins))) :=
  ⟨by decide,
   c7_worker_strategy_skipped_with_warning mBoom [⟨eA, ["i"]⟩] [⟨eB, ["w"]⟩] (by decide)⟩

/-- One step of `registerAll`. -/
theorem registerAll_cons (m : PluginManager) (x : Plugin) (rest : List Plugin) :
    m.registerAll (x :: rest) =
      match m.register x with
      | (m1, Except.ok _) => m1.registerAll rest
      | (m1, Except.error err) => (m1, Except.error err) := rfl

/-- `registerAll` over an append: the first failure aborts. -/
theorem registerAll_append (m : PluginManager) (xs ys : List Plugin) :
    m.registerAll (xs ++ ys) =
      match m.registerAll xs with
      | (m1, Except.ok _) => m1.registerAll ys
      | (m1, Except.error err) => (m1, Except.error err) := by
  induction xs generalizing m with
  | nil => rfl
  | cons x xs ih =>
    rcases hreg : m.register x with ⟨m1, r⟩
    rw [List.cons_append, registerAll_cons, registerAll_cons, hreg]
    cases r with
    | ok u =>
      dsimp only
      exact ih m1
    | error err =>
      dsimp only

/-- A successful `register` appends the plugin, keeps every previous
registration readable, and makes the new plugin readable. -/
theorem register_ok_spec (m m' : PluginManager) (x : Plugin) (u : Unit)
    (h : m.register x = (m', Except.ok u)) :
    (∀ n p, m.getPlugin n = some p → m'.getPlugin n = some p) ∧
    m'.getPlugin x.name = some x := by
  unfold PluginManager.register at h
  split at h
  · simp at h
  · rename_i hfind
    have h1 : ({ m with plugins := m.plugins ++ [(x.name, x)] } : PluginManager) = m' :=
      congrArg Prod.fst h
    subst h1
    constructor
    · intro n p hp
      unfold PluginManager.getPlugin at hp ⊢
      dsimp only
      rw [List.find?_append]
      rcases hf : m.plugins.find? (fun kv => kv.1 = n) with _ | kv
      · rw [hf] at hp
        cases hp
      · rw [hf] at hp
        rw [hf]
        exact hp
    · unfold PluginManager.getPlugin
      dsimp only
      rw [List.find?_append]
      have hnone : m.plugins.find? (fun kv => kv.1 = x.name) = none :=
        Option.not_isSome_iff_eq_none.mp hfind
      rw [hnone]
      simp

/-- A successful `registerAll` keeps every previous registration. -/
theorem registerAll_ok_preserves (m m1 : PluginManager) (xs : List Plugin)
    (u : Unit) (h : m.registerAll xs = (m1, Except.ok u)) :
    ∀ n p, m.getPlugin n = some p → m1.getPlugin n = some p := by
  induction xs generalizing m with
  | nil =>
    cases h
    exact fun n p hp => hp
  | cons x xs ih =>
    rw [registerAll_cons] at h
    rcases hreg : m.register x with ⟨m', r⟩
    rw [hreg] at h
    cases r with
    | ok u' =>
      dsimp only at h
      intro n p hp
      exact ih m' h n p ((register_ok_spec m m' x u' hreg).1 n p hp)
    | error err =>
      dsimp only at h
      simp at h

/-- After a successful `registerAll`, every registered plugin is
readable under its name. -/
theorem registerAll_ok_registers (m m1 : PluginManager) (xs : List Plugin)
    (u : Unit) (h : m.registerAll xs = (m1, Except.ok u)) :
    ∀ p ∈ xs, m1.getPlugin p.name = some p := by
  induction xs generalizing m with
  | nil =>
    intro p hp
    simp at hp
  | cons x xs ih =>
    rw [registerAll_cons] at h
    rcases hreg : m.register x with ⟨m', r⟩
    rw [hreg] at h
    cases r with
    | error err =>
      dsimp only at h
      simp at h
    | ok u' =>
      dsimp only at h
      intro p hp
      rcases List.mem_cons.mp hp with rfl | hp'
      · exact registerAll_ok_preserves m' m1 xs u h p.name p
          (register_ok_spec m m' p u' hreg).2
      · exact ih m' h p hp'

/-- A readable plugin name is listed by `listPlugins`. -/
theorem getPlugin_name_mem (m : PluginManager) (n : String) (p : Plugin)
    (h : m.getPlugin n = some p) : n ∈ m.listPlugins := by
  unfold PluginManager.getPlugin at h
  rcases hf : m.plugins.find? (fun kv => kv.1 = n) with _ | kv
  · rw [hf] at h
    cases h
  · have hkv : kv.1 = n := by simpa using List.find?_some hf
    have hmem := List.mem_of_find?_eq_some hf
    unfold PluginManager.listPlugins
    rw [← hkv]
    exact List.mem_map.mpr ⟨kv, hmem, rfl⟩

/-- C10: `registerAll` on a list whose tail contains a colliding name
raises on the collision, registers nothing after it, and keeps every
plugin registered before it readable — the registry is not rolled
back. -/
theorem c10_registerAll_aborts_without_rollback
    (m m1 : PluginManager) (u : Unit) (pre post : List Plugin) (bad : Plugin)
    (hpre : m.registerAll pre = (m1, Except.ok u))
    (hbad : (m1.getPlugin bad.name).isSome = true) :
    m.registerAll (pre ++ bad :: post) =
      (m1, Except.error ("Plugin \x22" ++ bad.name ++ "\x22 already registered"))
    ∧ ∀ p ∈ pre, m1.getPlugin p.name = some p ∧ p.name ∈ m1.listPlugins := by
  constructor
  · rw [registerAll_append, hpre]
    dsimp only
    rw [registerAll_cons]
    have hfind : (m1.plugins.find? (fun kv => kv.1 = bad.name)).isSome = true := by
      unfold PluginManager.getPlugin at hbad
      rcases hf : m1.plugins.find? (fun kv => kv.1 = bad.name) with _ | kv
      · rw [hf] at hbad
        simp at hbad
      · rw [hf]
        rfl
    unfold PluginManager.register
    rw [if_pos hfind]
  · intro p hp
    have h1 := registerAll_ok_registers m m1 pre u hpre p hp
    exact ⟨h1, getPlugin_name_mem m1 p.name p h1⟩

/-- Witness for C10: registering `[i, i, w]` on a fresh manager fails
on the second `i` and leaves the first registration in place. -/
theorem c10_witness :
    (mFresh.registerAll [pInline] = (m1W, Except.ok ())) ∧
    ((m1W.getPlugin pInline.name).isSome = true) ∧
    (mFresh.registerAll ([pInline] ++ pInline :: [pWorker]) =
      (m1W, Except.error ("Plugin \x22" ++ pInline.name ++ "\x22 already registered"))
     ∧ ∀ p ∈ [pInline], m1W.getPlugin p.name = some p ∧ p.name ∈ m1W.listPlugins) :=
  ⟨rfl, rfl,
   c10_registerAll_aborts_without_rollback mFresh m1W () [pInline] [pWorker] pInline rfl rfl⟩

end EventbridgeRouter
